import Mathlib

/-!
Verification development for the gamry repository (suhasharavindan/gamry).

The Python source under `gamry/` is shallowly embedded here:
pure functions become Lean functions over `List Char` strings and exact
rationals (standing in for Python floats), fallible code returns `Except`,
and the record objects become structures.  Each embedded definition is
named after the source function it translates.
-/

namespace Gamry

/-- Strings are modelled as lists of characters so that the regex-style
scanning done by the source can be embedded as list recursion. -/
abbrev LStr := List Char

/-- Errors that the embedded code can raise, mirroring the Python
exceptions that the source can raise: StopIteration (from `next` on a
short file), AttributeError (from `.group` on a failed `re.search`),
ValueError (from `float(...)` or unpacking a split that is not a pair,
the spec's MalformedHeader condition, and interp1d construction), and
TypeError (arithmetic on a string parameter). -/
inductive Err where
  | stopIteration
  | attrError
  | malformed
  | valueError
  | typeError
deriving DecidableEq, Repr

instance {ε α : Type _} [DecidableEq ε] [DecidableEq α] : DecidableEq (Except ε α) := fun a b =>
  match a, b with
  | .error e, .error e' =>
    if h : e = e' then .isTrue (by rw [h]) else .isFalse (by intro hh; cases hh; exact h rfl)
  | .error _, .ok _ => .isFalse (by intro hh; cases hh)
  | .ok _, .error _ => .isFalse (by intro hh; cases hh)
  | .ok x, .ok y =>
    if h : x = y then .isTrue (by rw [h]) else .isFalse (by intro hh; cases hh; exact h rfl)

/-- A parameter value after `Signal._clean_params`: either a converted
number or the raw string. -/
inductive PVal where
  | num (q : ℚ)
  | str (s : LStr)
deriving DecidableEq, Repr

/-- Python `str.strip`: drop whitespace from both ends. -/
def pyStrip (s : LStr) : LStr :=
  ((s.dropWhile Char.isWhitespace).reverse.dropWhile Char.isWhitespace).reverse

/-- Python `str.lower`, on the ASCII keys the source uses. -/
def toLowerStr (s : LStr) : LStr := s.map Char.toLower

/-- Python `str.split(':')`: split on every colon, keeping empty pieces. -/
def splitColon : LStr → List LStr
  | [] => [[]]
  | c :: cs =>
    let r := splitColon cs
    if c = ':' then [] :: r
    else
      match r with
      | h :: t => (c :: h) :: t
      | [] => [[c]]

/- ----------------------------------------------------------------
gamry/units.py
---------------------------------------------------------------- -/

/-- The character class `[TGMkcmuµnpf]` of the first regex in
`factor_conversion`. -/
def pfxClass : List Char := ['T', 'G', 'M', 'k', 'c', 'm', 'u', 'µ', 'n', 'p', 'f']

def isPfxChar (c : Char) : Bool := pfxClass.contains c

/-- Digits of a numeral to a natural number. -/
def digitsToNat (s : LStr) : ℕ :=
  s.foldl (fun acc c => 10 * acc + (c.toNat - 48)) 0

/-- Python `float` on a string matched by `\d+\.*\d*`: fails (ValueError)
when more than one dot is present, otherwise reads `digits[.digits]`. -/
def pyFloat (s : LStr) : Option ℚ :=
  let d1 := s.takeWhile Char.isDigit
  let dots := (s.drop d1.length).takeWhile (fun c => c = '.')
  let d2 := s.drop (d1.length + dots.length)
  if dots.length ≤ 1 then
    some ((digitsToNat d1 : ℚ) + (digitsToNat d2 : ℚ) / (10 : ℚ) ^ d2.length)
  else none

/-- Scan the leading `\d+\.*\d*` group: returns the matched characters and
the remaining input, or `none` when no leading digit is present. -/
def numScan (s : LStr) : Option (LStr × LStr) :=
  let d1 := s.takeWhile Char.isDigit
  if d1.isEmpty then none
  else
    let r1 := s.drop d1.length
    let dots := r1.takeWhile (fun c => c = '.')
    let r2 := r1.drop dots.length
    let d2 := r2.takeWhile Char.isDigit
    some (d1 ++ dots ++ d2, r2.drop d2.length)

/-- Groups captured by the regex
`^(\d+\.*\d*)\s*([TGMkcmuµnpf]*)([a-zA-Z]+)(\d*)$`. -/
structure UnitGroups where
  numStr : LStr
  pfx : LStr
  unitStr : LStr
  expStr : LStr
deriving DecidableEq, Repr

/-- Backtracking of the greedy `([TGMkcmuµnpf]*)([a-zA-Z]+)` pair on the
letter block `a`: try giving `n` characters to the SI-prefix group, and on
failure give one back, exactly as the regex engine does. -/
def trySplit (a : LStr) : ℕ → Option (LStr × LStr)
  | 0 => if !a.isEmpty && a.all Char.isAlpha then some ([], a) else none
  | n + 1 =>
    let rest := a.drop (n + 1)
    if !rest.isEmpty && rest.all Char.isAlpha then some (a.take (n + 1), rest)
    else trySplit a n

/-- Embedding of `re.match(r'^(\d+\.*\d*)\s*([TGMkcmuµnpf]*)([a-zA-Z]+)(\d*)$', val)`.
After the number and optional whitespace, the trailing digit run is the
exponent group and the rest must split into SI-prefix characters followed
by at least one ASCII letter (preferring the longest prefix). -/
def matchUnits (s : LStr) : Option UnitGroups :=
  match numScan s with
  | none => none
  | some (numStr, rest) =>
    let rest2 := rest.dropWhile Char.isWhitespace
    let dTail := (rest2.reverse.takeWhile Char.isDigit).reverse
    let a := rest2.take (rest2.length - dTail.length)
    match trySplit a (a.takeWhile isPfxChar).length with
    | none => none
    | some (p, u) => some ⟨numStr, p, u, dTail⟩

/-- `UNIT_FACTOR` of gamry/units.py restricted to its character keys. -/
def UNIT_FACTOR (c : Char) : Option ℚ :=
  if c = 'T' then some (10 ^ 12)
  else if c = 'G' then some (10 ^ 9)
  else if c = 'M' then some (10 ^ 6)
  else if c = 'k' then some (10 ^ 3)
  else if c = 'c' then some (1 / 10 ^ 2)
  else if c = 'm' then some (1 / 10 ^ 3)
  else if c = 'u' then some (1 / 10 ^ 6)
  else if c = 'µ' then some (1 / 10 ^ 6)
  else if c = 'n' then some (1 / 10 ^ 9)
  else if c = 'p' then some (1 / 10 ^ 12)
  else if c = 'f' then some (1 / 10 ^ 15)
  else none

/-- The prefix factor used by `factor_conversion`: an empty capture group
is falsy in Python, so the key `1` of `UNIT_FACTOR` (value 1) is used; a
single captured character is looked up; any longer string is not a key of
`UNIT_FACTOR` and the function returns None. -/
def factorOfGroup : LStr → Option ℚ
  | [] => some 1
  | [c] => UNIT_FACTOR c
  | _ => none

/-- `UNIT_FACTOR[FACTOR_DEFAULT[unit]]` of gamry/units.py: the default
factor of each recognized base unit (v→1, a→u, ohm→1, m→c, s→1, min→1). -/
def FACTOR_DEFAULT (u : LStr) : Option ℚ :=
  if u = ("v".toList) then some 1
  else if u = ("a".toList) then some (1 / 10 ^ 6)
  else if u = ("ohm".toList) then some 1
  else if u = ("m".toList) then some (1 / 10 ^ 2)
  else if u = ("s".toList) then some 1
  else if u = ("min".toList) then some 1
  else none

/-- The exponent group: `float(m.group(4)) if m.group(4) else 1`. -/
def expVal (e : LStr) : ℕ := if e.isEmpty then 1 else digitsToNat e

/-- Embedding of `factor_conversion` (gamry/units.py).  `.ok none` is the
Python `return None` (conversion miss); `.error` is a propagating
`float(...)` ValueError on a multi-dot numeral. -/
def factor_conversion (val : LStr) : Except Err (Option ℚ) :=
  match matchUnits val with
  | some g =>
    match pyFloat g.numStr with
    | none => .error .valueError
    | some num =>
      match factorOfGroup g.pfx, FACTOR_DEFAULT (toLowerStr g.unitStr) with
      | some pf, some df => .ok (some (num * (pf / df) ^ expVal g.expStr))
      | _, _ => .ok none
  | none =>
    match numScan val with
    | some (_, []) =>
      match pyFloat val with
      | none => .error .valueError
      | some q => .ok (some q)
    | _ => .ok none

/- ----------------------------------------------------------------
gamry/signal.py : Signal._read_note, Signal._clean_params
---------------------------------------------------------------- -/

/-- One `key: value` clean-up step of `Signal._clean_params`: the walrus
`if converted_num := factor_conversion(val)` only replaces the raw string
when the conversion result is truthy, so both `None` and `0.0` leave the
raw string in place. -/
def cleanEntry (kv : LStr × LStr) : Except Err (LStr × PVal) :=
  match factor_conversion kv.2 with
  | .error e => .error e
  | .ok none => .ok (kv.1, .str kv.2)
  | .ok (some q) => .ok (kv.1, if q = 0 then .str kv.2 else .num q)

/-- Embedding of `Signal._clean_params`: convert each stored value,
propagating a `float(...)` ValueError. -/
def clean_params : List (LStr × LStr) → Except Err (List (LStr × PVal))
  | [] => .ok []
  | kv :: rest =>
    match cleanEntry kv with
    | .error e => .error e
    | .ok e =>
      match clean_params rest with
      | .error e' => .error e'
      | .ok rs => .ok (e :: rs)

/-- Python dict assignment `params[key] = val`: replace the value when the
key exists, otherwise append (insertion order is preserved). -/
def insertParam (ps : List (LStr × LStr)) (k v : LStr) : List (LStr × LStr) :=
  match ps with
  | [] => [(k, v)]
  | (k', v') :: rest => if k' = k then (k, v) :: rest else (k', v') :: insertParam rest k v

/-- `line.startswith('PSTAT')`. -/
def pstatB (l : LStr) : Bool := ("PSTAT".toList).isPrefixOf l

/-- `key, val = [i.strip() for i in line.split(':')]`: succeeds only when
the line splits on exactly one colon (otherwise the unpacking raises, the
spec's MalformedHeader condition). -/
def splitStrip (l : LStr) : Option (LStr × LStr) :=
  match splitColon l with
  | [a, b] => some (pyStrip a, pyStrip b)
  | _ => none

/-- The `for line in f` loop of `Signal._read_note`: lines after the first
note line are parsed until one starts with `PSTAT` (which is not stored)
or the file ends; a line that does not split on one colon raises. -/
def noteLoop (acc : List (LStr × LStr)) : List LStr → Except Err (List (LStr × LStr))
  | [] => .ok acc
  | l :: ls =>
    if pstatB l then .ok acc
    else
      match splitStrip l with
      | some (k, v) => noteLoop (insertParam acc (toLowerStr k) v) ls
      | none => .error .malformed

/-- Embedding of the reading part of `Signal._read_note` (gamry/signal.py):
six preamble lines are skipped with `next(f)` (StopIteration if the file is
shorter), then the first note line is read with `readline()` (empty at end
of file).  A blank first note line yields no parameters; otherwise the
first line is split and stored (note: it is not checked against `PSTAT`),
and the remaining lines are processed by the loop. -/
def read_note_params (lines : List LStr) : Except Err (List (LStr × LStr)) :=
  if lines.length < 6 then .error .stopIteration
  else
    let line7 := lines.getD 6 []
    if pyStrip line7 = [] then .ok []
    else
      match splitStrip line7 with
      | some (k, v) => noteLoop [(toLowerStr k, v)] (lines.drop 7)
      | none => .error .malformed

/-- Full `Signal._read_note`: the reading loop followed by the
`_clean_params` call at its end. -/
def read_note (lines : List LStr) : Except Err (List (LStr × PVal)) :=
  match read_note_params lines with
  | .error e => .error e
  | .ok ps => clean_params ps

/- ----------------------------------------------------------------
gamry/data.py : create_signal, _load_object, load_signals
---------------------------------------------------------------- -/

/-- Python `\w` on the ASCII range (the tag tokens are ASCII). -/
def isWordChar (c : Char) : Bool := c.isAlphanum || c = '_'

/-- Try to match `TAG\t(\w+)` at the current position. -/
def tagHere (l : LStr) : Option LStr :=
  if ("TAG\t".toList).isPrefixOf l then
    let w := (l.drop 4).takeWhile isWordChar
    if w.isEmpty then none else some w
  else none

/-- Embedding of `re.search(r'TAG\t(\w+)', line)`: first position where the
pattern matches, `none` when there is no match (in which case `.group(1)`
in `create_signal` raises AttributeError). -/
def extractTag : LStr → Option LStr
  | [] => none
  | c :: cs =>
    match tagHere (c :: cs) with
    | some t => some t
    | none => extractTag cs

/-- A parsed record as far as the claims need it: the `type` string set by
the matching `Signal` subclass constructor and the cleaned parameter
mapping.  The data-table phase of each constructor is not modelled; the
modelled failure modes are the header ones. -/
structure Rec0 where
  typ : LStr
  params : List (LStr × PVal)
deriving DecidableEq, Repr

/-- Construction shared by the four dispatched `Signal` subclasses: each
calls `Signal.__init__` with its fixed type string, which runs
`_read_note` (and `_clean_params`). -/
def mkRec (t : LStr) (file : List LStr) : Except Err (Option Rec0) :=
  match read_note file with
  | .error e => .error e
  | .ok ps => .ok (some ⟨t, ps⟩)

/-- Embedding of `_load_object` (gamry/data.py): only `EISPOT`, `EISMON`,
`CV` and `CPC` are dispatched; every other tag (including `CHRONOA`,
whose class exists in gamry/signal.py but is not imported by gamry/data.py)
falls to the `else` branch and returns `None`. -/
def load_object (tag : LStr) (file : List LStr) : Except Err (Option Rec0) :=
  if tag = ("EISPOT".toList) then mkRec ("EISPOT".toList) file
  else if tag = ("EISMON".toList) then mkRec ("EISMON".toList) file
  else if tag = ("CV".toList) then mkRec ("CV".toList) file
  else if tag = ("CPC".toList) then mkRec ("CPC".toList) file
  else .ok none

/-- Embedding of `create_signal` (gamry/data.py): read line 2, extract the
tag (AttributeError when the search fails), optionally filter by
`signal_type` (a falsy filter, `None` or the empty string, is skipped),
and dispatch.  A file of fewer than two lines makes `next(f)` raise. -/
def create_signal (signal_type : Option LStr) (file : List LStr) : Except Err (Option Rec0) :=
  if file.length < 2 then .error .stopIteration
  else
    match extractTag (file.getD 1 []) with
    | none => .error .attrError
    | some tag =>
      match signal_type with
      | some t =>
        if t.isEmpty then load_object tag file
        else if tag = t then load_object tag file
        else .ok none
      | none => load_object tag file

/-- Embedding of the parsing loop of `load_signals` (gamry/data.py): each
file is passed to `create_signal`; a `None` result is skipped, a record is
appended, and an exception propagates immediately (there is no
try/except), aborting the whole batch. -/
def load_signals (signal_type : Option LStr) : List (List LStr) → Except Err (List Rec0)
  | [] => .ok []
  | f :: fs =>
    match create_signal signal_type f with
    | .error e => .error e
    | .ok none => load_signals signal_type fs
    | .ok (some r) =>
      match load_signals signal_type fs with
      | .error e => .error e
      | .ok rs => .ok (r :: rs)

/- ----------------------------------------------------------------
gamry/data.py : filter_signals
---------------------------------------------------------------- -/

/-- Python substring containment `needle in hay`. -/
def isSubstr (needle : LStr) : LStr → Bool
  | [] => needle.isEmpty
  | c :: t => needle.isPrefixOf (c :: t) || isSubstr needle t

/-- A signal as seen by `filter_signals`: its `type`, `label` and cleaned
`params` attributes. -/
structure Signal0 where
  typ : LStr
  label : LStr
  params : List (LStr × PVal)
deriving DecidableEq, Repr

/-- Lookup in the parameter mapping (`key in signal.params` /
`signal.params[key]`). -/
def lookupParam : List (LStr × PVal) → LStr → Option PVal
  | [], _ => none
  | (k', v) :: rest, k => if k' = k then some v else lookupParam rest k

/-- Embedding of `filter_signals` (gamry/data.py).  The `signal_type` and
`label` predicates skip a signal via `continue` in the outer loop; a falsy
(empty) filter string is not applied.  The loop over `param_filters` ends
every one of its iterations with a `continue` statement that targets the
inner `for key, val` loop, so it never reaches a statement that could skip
the append: `param_filters` has no effect on the result. -/
def filter_signals (signals : List Signal0) (signal_type : Option LStr)
    (label : Option LStr) (param_filters : List (LStr × PVal)) : List Signal0 :=
  signals.filter fun s =>
    (match signal_type with
     | none => true
     | some t => t.isEmpty || s.typ == t) &&
    (match label with
     | none => true
     | some l => l.isEmpty || isSubstr l s.label)

/- ----------------------------------------------------------------
gamry/signal.py : CV.find_skiplines, CV._read_data
---------------------------------------------------------------- -/

/-- The search string `'CURVE' + str(curve_num)`. -/
def curveStr (k : ℕ) : LStr := ("CURVE".toList) ++ (Nat.repr k).toList

/-- The scanning loop of `CV.find_skiplines`: `cnt` starts at 1 (so the
collected values are 1-based line numbers), and each hit advances the
searched curve number. -/
def cvSkipAux : List LStr → ℕ → ℕ → List ℕ
  | [], cnt, _ => [cnt]
  | l :: ls, cnt, k =>
    if isSubstr (curveStr k) l then cnt :: cvSkipAux ls (cnt + 1) (k + 1)
    else cvSkipAux ls (cnt + 1) k

/-- Embedding of `CV.find_skiplines` (gamry/signal.py): the 1-based line
numbers of the `CURVE1`, `CURVE2`, ... markers, with the final `cnt`
(number of lines + 1) appended for the end of file. -/
def cv_find_skiplines (file : List LStr) : List ℕ := cvSkipAux file 1 1

/-- The row selection of `pd.read_csv(..., skiprows=skip_list)`: rows are
0-based file lines, the listed ones are dropped. -/
def readRows (file : List LStr) (skip : List ℕ) : List LStr :=
  (file.enum.filter fun p => !(skip.contains p.1)).map fun p => p.2

/-- One iteration of the loop in `CV._read_data`: the skip list is
`list(range(row)) + [row + 1] + list(range(skip_rows[idx+1], skip_rows[-1]))`
and the first remaining row is consumed as the CSV header. -/
def cvSegment (file : List LStr) (row next last : ℕ) : List LStr :=
  (readRows file (List.range row ++ [row + 1] ++ List.range' next (last - next))).drop 1

/-- The `for idx, row in enumerate(skip_rows[:-1])` loop: each segment's
data rows are tagged with `Curve = idx + 1` and all segments are
concatenated in order. -/
def cvSegsAux (file : List LStr) (last : ℕ) : List ℕ → ℕ → List (LStr × ℕ)
  | [], _ => []
  | [_], _ => []
  | r :: next :: rest, idx =>
    ((cvSegment file r next last).map fun l => (l, idx + 1))
      ++ cvSegsAux file last (next :: rest) (idx + 1)

/-- Embedding of `CV._read_data` (gamry/signal.py), at the granularity of
raw table rows: the resulting table as a list of (data line, `Curve`)
pairs.  The final current-rescaling step operates on a parsed numeric
column and is outside this row-level model. -/
def cv_read_data (file : List LStr) : List (LStr × ℕ) :=
  let sr := cv_find_skiplines file
  cvSegsAux file (sr.getLastD 0) sr 0

/- ----------------------------------------------------------------
gamry/signal.py : EISPOT corner-frequency computation
---------------------------------------------------------------- -/

/-- Insertion of a point into a list sorted by the interpolation axis
(scipy's `interp1d` sorts its x values on construction). -/
def insertByFst (p : ℚ × ℚ) : List (ℚ × ℚ) → List (ℚ × ℚ)
  | [] => [p]
  | q :: qs => if p.1 ≤ q.1 then p :: q :: qs else q :: insertByFst p qs

/-- Sort the sample points by their x value. -/
def sortByFst : List (ℚ × ℚ) → List (ℚ × ℚ)
  | [] => []
  | p :: ps => insertByFst p (sortByFst ps)

/-- Piecewise-linear interpolation on x-sorted sample points, evaluated at
`t`; `none` is the out-of-bounds ValueError of `interp1d.__call__`. -/
def interpSorted : List (ℚ × ℚ) → ℚ → Option ℚ
  | [], _ => none
  | [p], t => if p.1 = t then some p.2 else none
  | p :: q :: rest, t =>
    if t < p.1 then none
    else if t ≤ q.1 then some (p.2 + (q.2 - p.2) * (t - p.1) / (q.1 - p.1))
    else interpSorted (q :: rest) t

/-- `interp1d(xs, ys)(t)` after the construction checks have passed. -/
def interpAt (xs ys : List ℚ) (t : ℚ) : Option ℚ :=
  interpSorted (sortByFst (xs.zip ys)) t

/-- One corner-frequency result dictionary of `EISPOT`: the four fields
`freq`, `cap`, `cap/area` and `factor`, each None when interpolation was
out of range. -/
structure Corner where
  freq : Option ℚ
  cap : Option ℝ
  capArea : Option ℝ
  factor : Option ℝ

/-- The all-None dictionary produced by the `except ValueError` branch. -/
def noneCorner : Corner := ⟨none, none, none, none⟩

/-- Shared body of `EISPOT._set_db_corner_freq` and
`EISPOT._set_phase_corner_frequency`: build the interpolation (its
construction errors — length mismatch or fewer than two points — are
raised outside the `try` and propagate), evaluate it at the target, and on
success compute `cap = 1/(2·π·rs·f)`, `cap/area` and
`factor = cap/area / 20e-6`; an out-of-range ValueError is caught and
yields the all-None dictionary. -/
noncomputable def cornerFromTable (metric freqs : List ℚ) (rs area : ℚ) (t : ℚ) :
    Except Err Corner :=
  if metric.length ≠ freqs.length ∨ metric.length < 2 then .error .valueError
  else
    match interpAt metric freqs t with
    | none => .ok noneCorner
    | some fc =>
      .ok ⟨some fc, some (1 / (2 * Real.pi * (rs : ℝ) * (fc : ℝ))),
        some (1 / (2 * Real.pi * (rs : ℝ) * (fc : ℝ)) / (area : ℝ)),
        some (1 / (2 * Real.pi * (rs : ℝ) * (fc : ℝ)) / (area : ℝ) / (20e-6 : ℝ))⟩

/-- The state of an `EISPOT` record that the corner computation reads: the
`|Z| dB`, `Phase` and `Freq` columns, the series resistance `rs`, the
electrode area, and the two stored result dictionaries assigned in
`__init__`.  Column contents are modelled as exact rationals. -/
structure EISPOTRec where
  df_db : List ℚ
  df_phase : List ℚ
  df_freq : List ℚ
  rs : ℚ
  area : ℚ
  db_corner_params : Corner
  phase_corner_params : Corner

/-- `EISPOT._set_db_corner_freq`: interpolates frequency against the dB
column and evaluates at +3 dB. -/
noncomputable def EISPOT_set_db_corner_freq (s : EISPOTRec) : Except Err Corner :=
  cornerFromTable s.df_db s.df_freq s.rs s.area 3

/-- `EISPOT._set_phase_corner_frequency`: interpolates frequency against
the phase column and evaluates at −45°. -/
noncomputable def EISPOT_set_phase_corner_frequency (s : EISPOTRec) : Except Err Corner :=
  cornerFromTable s.df_phase s.df_freq s.rs s.area (-45)

/-- Embedding of the `EISPOT.area` property setter: it assigns `_area` and
calls the two `_set_...` methods, whose returned dictionaries are
discarded (unlike in `__init__`, nothing is assigned to
`db_corner_params` or `phase_corner_params`); exceptions raised by the
calls propagate. -/
noncomputable def EISPOT_setArea (s : EISPOTRec) (v : ℚ) : Except Err EISPOTRec :=
  let s' := { s with area := v }
  match EISPOT_set_db_corner_freq s' with
  | .error e => .error e
  | .ok _ =>
    match EISPOT_set_phase_corner_frequency s' with
    | .error e => .error e
    | .ok _ => .ok s'

/- ----------------------------------------------------------------
gamry/signal.py : Signal._update_attributes (area resolution)
---------------------------------------------------------------- -/

/-- The value of the `_area` attribute: `params['area']` is stored as-is
(so it can be a raw string), while the radius/diameter/default branches
compute a real number. -/
inductive AVal where
  | num (x : ℝ)
  | str (s : LStr)

/-- A parameter value used directly as the area. -/
noncomputable def avalOfP : PVal → AVal
  | .num q => .num (q : ℝ)
  | .str s => .str s

/-- Embedding of the area-resolution block of `Signal._update_attributes`:
`area` wins outright and is used as stored; otherwise `radius` gives
`π·r²`, else `diameter` gives `π·(d/2)²`, else the fixed default
`π·0.05²`.  Arithmetic on a raw-string radius or diameter raises
TypeError.  (The label-resolution block of the same method is independent
of area and is not modelled here.) -/
noncomputable def update_area (params : List (LStr × PVal)) : Except Err AVal :=
  match lookupParam params ("area".toList) with
  | some v => .ok (avalOfP v)
  | none =>
    match lookupParam params ("radius".toList) with
    | some (.num r) => .ok (.num (Real.pi * (r : ℝ) ^ 2))
    | some (.str _) => .error .typeError
    | none =>
      match lookupParam params ("diameter".toList) with
      | some (.num d) => .ok (.num (Real.pi * ((d : ℝ) / 2) ^ 2))
      | some (.str _) => .error .typeError
      | none => .ok (.num (Real.pi * (0.05 : ℝ) ^ 2))

/- ----------------------------------------------------------------
Helper lemmas
---------------------------------------------------------------- -/

/-- Entries collected by the note loop from a run of well-formed,
non-sentinel lines: each line split on its single colon, the key
lower-cased. -/
def collectEntries : List LStr → Option (List (LStr × LStr))
  | [] => some []
  | l :: ls =>
    match splitStrip l with
    | some (k, v) =>
      match collectEntries ls with
      | some rest => some ((toLowerStr k, v) :: rest)
      | none => none
    | none => none

theorem noteLoop_append {mids : List LStr} {es : List (LStr × LStr)} :
    ∀ {acc rest}, (∀ l ∈ mids, pstatB l = false) → collectEntries mids = some es →
    noteLoop acc (mids ++ rest) = noteLoop (es.foldl (fun a kv => insertParam a kv.1 kv.2) acc) rest := by
  induction mids generalizing es with
  | nil =>
    intro acc rest _ hc
    simp only [collectEntries, Option.some.injEq] at hc
    subst hc
    simp [List.foldl]
  | cons l ls ih =>
    intro acc rest hp hc
    simp only [collectEntries] at hc
    rcases hsp : splitStrip l with _ | ⟨k, v⟩ <;> rw [hsp] at hc
    · exact absurd hc (by simp)
    · rcases hcl : collectEntries ls with _ | es' <;> rw [hcl] at hc
      · exact absurd hc (by simp)
      · simp only [Option.some.injEq] at hc
        subst hc
        have hl : pstatB l = false := hp l (by simp)
        simp only [List.cons_append, noteLoop, hl, Bool.false_eq_true, if_false, hsp]
        exact ih (fun x hx => hp x (by simp [hx])) hcl

theorem getD6_of_len6 {pre : List LStr} {l7 : LStr} {rest : List LStr} (h : pre.length = 6) :
    (pre ++ l7 :: rest).getD 6 [] = l7 := by
  rw [List.getD_eq_getD_get?, ← h, List.get?_append_right (Nat.le_refl _)]
  simp

theorem drop7_of_len6 {pre : List LStr} {l7 : LStr} {rest : List LStr} (h : pre.length = 6) :
    (pre ++ l7 :: rest).drop 7 = rest := by
  have he : pre ++ l7 :: rest = (pre ++ [l7]) ++ rest := by simp
  have hl : (pre ++ [l7]).length = 7 := by simp [h]
  rw [he, ← hl, List.drop_left]

theorem len_ge_of_len6 {pre : List LStr} {l7 : LStr} {rest : List LStr} (h : pre.length = 6) :
    ¬ (pre ++ l7 :: rest).length < 6 := by
  simp [List.length_append, h]

/-- Membership is preserved by sorted insertion. -/
theorem mem_insertByFst {p q : ℚ × ℚ} : ∀ {l}, q ∈ insertByFst p l ↔ q = p ∨ q ∈ l := by
  intro l
  induction l with
  | nil => simp [insertByFst]
  | cons r rs ih =>
    by_cases hle : p.1 ≤ r.1
    · simp [insertByFst, hle, or_comm, or_assoc]
    · simp only [insertByFst, hle, if_false, List.mem_cons, ih]
      tauto

theorem mem_sortByFst {q : ℚ × ℚ} : ∀ {l}, q ∈ sortByFst l ↔ q ∈ l := by
  intro l
  induction l with
  | nil => simp [sortByFst]
  | cons r rs ih => simp [sortByFst, mem_insertByFst, ih]

/-- Sortedness (pairwise ≤ on the x coordinates) of the insertion result. -/
theorem pairwise_insertByFst {p : ℚ × ℚ} :
    ∀ {l}, l.Pairwise (fun a b => a.1 ≤ b.1) →
      (insertByFst p l).Pairwise (fun a b => a.1 ≤ b.1) := by
  intro l
  induction l with
  | nil => simp [insertByFst]
  | cons r rs ih =>
    intro h
    rcases List.pairwise_cons.1 h with ⟨hr, hrs⟩
    by_cases hle : p.1 ≤ r.1
    · simp only [insertByFst, hle, if_true]
      refine List.pairwise_cons.2 ⟨?_, h⟩
      intro b hb
      rcases List.mem_cons.1 hb with rfl | hb
      · exact hle
      · exact le_trans hle (hr b hb)
    · simp only [insertByFst, hle, if_false]
      refine List.pairwise_cons.2 ⟨?_, ih hrs⟩
      intro b hb
      rcases mem_insertByFst.1 hb with hb | hb
      · subst hb
        exact le_of_not_le hle
      · exact hr b hb

theorem pairwise_sortByFst : ∀ {l : List (ℚ × ℚ)},
    (sortByFst l).Pairwise (fun a b => a.1 ≤ b.1) := by
  intro l
  induction l with
  | nil => simp [sortByFst]
  | cons r rs ih => exact pairwise_insertByFst ih

/-- When the target is above every sample, interpolation fails. -/
theorem interpSorted_none_of_all_lt {t : ℚ} :
    ∀ {l : List (ℚ × ℚ)}, (∀ p ∈ l, p.1 < t) → interpSorted l t = none := by
  intro l
  induction l with
  | nil => intro _; rfl
  | cons p tl ih =>
    intro h
    cases tl with
    | nil =>
      have : p.1 ≠ t := ne_of_lt (h p (by simp))
      simp [interpSorted, this]
    | cons q rest =>
      have hp : ¬ t < p.1 := not_lt_of_gt (h p (by simp))
      have hq : ¬ t ≤ q.1 := not_le_of_gt (h q (by simp))
      simp only [interpSorted, hp, if_false, hq]
      exact ih fun r hr => h r (by simp [List.mem_cons] at hr ⊢; tauto)

/-- When the target is below every sample, interpolation fails. -/
theorem interpSorted_none_of_all_gt {t : ℚ} :
    ∀ {l : List (ℚ × ℚ)}, (∀ p ∈ l, t < p.1) → interpSorted l t = none := by
  intro l
  cases l with
  | nil => intro _; rfl
  | cons p tl =>
    intro h
    cases tl with
    | nil =>
      have : p.1 ≠ t := (ne_of_gt (h p (by simp)))
      simp [interpSorted, this]
    | cons q rest =>
      have hp : t < p.1 := h p (by simp)
      simp [interpSorted, hp]

/-- On a sorted sample list whose x range brackets the target, the
interpolation succeeds. -/
theorem interpSorted_isSome_of_bracket {t : ℚ} :
    ∀ {l : List (ℚ × ℚ)}, l.Pairwise (fun a b => a.1 ≤ b.1) →
      (∃ p ∈ l, p.1 ≤ t) → (∃ p ∈ l, t ≤ p.1) → (interpSorted l t).isSome := by
  intro l
  induction l with
  | nil => rintro _ ⟨p, hp, _⟩ _; exact absurd hp (by simp)
  | cons p tl ih =>
    intro hs ha hb
    cases tl with
    | nil =>
      rcases ha with ⟨a, haM, hat⟩
      rcases hb with ⟨b, hbM, hbt⟩
      simp only [List.mem_singleton] at haM hbM
      have hpt : p.1 = t := le_antisymm (haM ▸ hat) (hbM ▸ hbt)
      simp [interpSorted, hpt]
    | cons q rest =>
      rcases List.pairwise_cons.1 hs with ⟨hpAll, hsTl⟩
      have hpt : p.1 ≤ t := by
        rcases ha with ⟨a, haM, hat⟩
        rcases List.mem_cons.1 haM with rfl | haM
        · exact hat
        · exact le_trans (hpAll a haM) hat
      have h1 : ¬ t < p.1 := not_lt_of_ge hpt
      by_cases h2 : t ≤ q.1
      · simp [interpSorted, h1, h2]
      · simp only [interpSorted, h1, if_false, h2]
        have hqt : q.1 ≤ t := le_of_not_le h2
        refine ih hsTl ⟨q, by simp, hqt⟩ ?_
        rcases hb with ⟨b, hbM, hbt⟩
        rcases List.mem_cons.1 hbM with rfl | hbM
        · have hqb : b.1 ≤ q.1 := hpAll q (by simp)
          exact absurd (le_trans hbt hqb) h2
        · exact ⟨b, hbM, hbt⟩

/-- A member of the first column of a zip comes with its partner. -/
theorem exists_zip_pair {a : ℚ} :
    ∀ {xs ys : List ℚ}, xs.length = ys.length → a ∈ xs → ∃ b, (a, b) ∈ xs.zip ys := by
  intro xs
  induction xs with
  | nil => intro ys _ ha; exact absurd ha (by simp)
  | cons x xt ih =>
    intro ys hl ha
    cases ys with
    | nil => simp at hl
    | cons y yt =>
      rcases List.mem_cons.1 ha with rfl | ha
      · exact ⟨y, by simp⟩
      · rcases ih (by simpa using hl) ha with ⟨b, hb⟩
        exact ⟨b, by simp [hb]⟩

/-- Reduction of the corner computation when the interpolation succeeds. -/
theorem cornerFromTable_eval {metric freqs : List ℚ} {rs area t fc : ℚ}
    (hg : ¬ (metric.length ≠ freqs.length ∨ metric.length < 2))
    (hi : interpAt metric freqs t = some fc) :
    cornerFromTable metric freqs rs area t =
      .ok ⟨some fc, some (1 / (2 * Real.pi * (rs : ℝ) * (fc : ℝ))),
        some (1 / (2 * Real.pi * (rs : ℝ) * (fc : ℝ)) / (area : ℝ)),
        some (1 / (2 * Real.pi * (rs : ℝ) * (fc : ℝ)) / (area : ℝ) / (20e-6 : ℝ))⟩ := by
  unfold cornerFromTable
  rw [if_neg hg, hi]

/-- The corner computation returns the all-None dictionary when the target
lies outside the sampled range of the metric column. -/
theorem cornerFromTable_out_of_range {metric freqs : List ℚ} {rs area t : ℚ}
    (hg : ¬ (metric.length ≠ freqs.length ∨ metric.length < 2))
    (hout : (∀ x ∈ metric, x < t) ∨ (∀ x ∈ metric, t < x)) :
    cornerFromTable metric freqs rs area t = .ok noneCorner := by
  have hnone : interpAt metric freqs t = none := by
    unfold interpAt
    rcases hout with hout | hout
    · refine interpSorted_none_of_all_lt ?_
      intro p hp
      exact hout p.1 (List.mem_zip (mem_sortByFst.1 hp)).1
    · refine interpSorted_none_of_all_gt ?_
      intro p hp
      exact hout p.1 (List.mem_zip (mem_sortByFst.1 hp)).1
  unfold cornerFromTable
  rw [if_neg hg, hnone]

/-- The corner computation succeeds with the closed-form capacitance
fields when the metric range brackets the target. -/
theorem cornerFromTable_in_range {metric freqs : List ℚ} {rs area t : ℚ}
    (hlen : metric.length = freqs.length)
    (h2 : 2 ≤ metric.length)
    (ha : ∃ a ∈ metric, a ≤ t) (hb : ∃ b ∈ metric, t ≤ b) :
    ∃ fc, cornerFromTable metric freqs rs area t =
      .ok ⟨some fc, some (1 / (2 * Real.pi * (rs : ℝ) * (fc : ℝ))),
        some (1 / (2 * Real.pi * (rs : ℝ) * (fc : ℝ)) / (area : ℝ)),
        some (1 / (2 * Real.pi * (rs : ℝ) * (fc : ℝ)) / (area : ℝ) / (20e-6 : ℝ))⟩ := by
  have hg : ¬ (metric.length ≠ freqs.length ∨ metric.length < 2) := by
    push_neg
    exact ⟨hlen, by omega⟩
  have hsome : (interpAt metric freqs t).isSome := by
    unfold interpAt
    rcases ha with ⟨a, haM, hat⟩
    rcases hb with ⟨b, hbM, hbt⟩
    rcases exists_zip_pair hlen haM with ⟨ya, hya⟩
    rcases exists_zip_pair hlen hbM with ⟨yb, hyb⟩
    exact interpSorted_isSome_of_bracket pairwise_sortByFst
      ⟨(a, ya), mem_sortByFst.2 hya, hat⟩ ⟨(b, yb), mem_sortByFst.2 hyb, hbt⟩
  rcases Option.isSome_iff_exists.1 hsome with ⟨fc, hfc⟩
  exact ⟨fc, cornerFromTable_eval hg hfc⟩

/- ----------------------------------------------------------------
Concrete inputs used by the claim theorems
---------------------------------------------------------------- -/

set_option maxRecDepth 16384

/-- Two signals: one whose `params` lacks the filtered key, one whose
value for it differs from the required value. -/
def exS1 : Signal0 := ⟨"CV".toList, "S1".toList, []⟩

def exS2 : Signal0 := ⟨"CV".toList, "S2".toList, [("foo".toList, PVal.num 2)]⟩

/-- A minimal well-formed file with the given tag on line 2 and a blank
first note line. -/
def mkTagFile (tok : LStr) : List LStr :=
  ["EXPLAIN".toList, ("TAG\t".toList) ++ tok, "T3".toList, "T4".toList,
   "T5".toList, "T6".toList, "".toList]

/-- A two-curve cyclic-voltammetry file: markers on lines 8 and 13, each
followed by a header row, a units row and two data rows. -/
def exCV : List LStr :=
  ["EXPLAIN".toList, "TAG\tCV".toList, "T3".toList, "T4".toList, "T5".toList, "T6".toList,
   "".toList,
   "CURVE1\tTABLE\t2".toList, "Pt\tT\tVf\tIm".toList, "#\ts\tV\tA".toList,
   "0\t0.1\t0.5\t0.001".toList, "1\t0.2\t0.6\t0.002".toList,
   "CURVE2\tTABLE\t2".toList, "Pt\tT\tVf\tIm".toList, "#\ts\tV\tA".toList,
   "0\t0.3\t0.7\t0.003".toList, "1\t0.4\t0.8\t0.004".toList]

/-- A file whose first note line starts with the `PSTAT` sentinel and
carries one colon. -/
def exPstatFirst : List LStr :=
  ["L1".toList, "L2".toList, "L3".toList, "L4".toList, "L5".toList, "L6".toList,
   "PSTAT: potentiostat".toList]

/-- A well-formed file (its note parses), a file whose note line has no
colon (MalformedHeader), and a second well-formed file. -/
def exGood1 : List LStr :=
  ["EXPLAIN".toList, "TAG\tCV".toList, "T3".toList, "T4".toList, "T5".toList, "T6".toList,
   "label: S1".toList]

def exBad : List LStr :=
  ["EXPLAIN".toList, "TAG\tCV".toList, "T3".toList, "T4".toList, "T5".toList, "T6".toList,
   "badline".toList]

def exGood2 : List LStr :=
  ["EXPLAIN".toList, "TAG\tCV".toList, "T3".toList, "T4".toList, "T5".toList, "T6".toList,
   "label: S2".toList]

/-- The record parsed from `exGood1`. -/
def exGood1Rec : Rec0 := ⟨"CV".toList, [("label".toList, PVal.str ("S1".toList))]⟩

/-- The corner dictionary computed by `EISPOT.__init__` on the table
below with area 2 (corner frequency 55, `rs` 5). -/
noncomputable def c2db : Corner :=
  ⟨some 55, some (1 / (2 * Real.pi * ((5 : ℚ) : ℝ) * ((55 : ℚ) : ℝ))),
   some (1 / (2 * Real.pi * ((5 : ℚ) : ℝ) * ((55 : ℚ) : ℝ)) / ((2 : ℚ) : ℝ)),
   some (1 / (2 * Real.pi * ((5 : ℚ) : ℝ) * ((55 : ℚ) : ℝ)) / ((2 : ℚ) : ℝ) / (20e-6 : ℝ))⟩

/-- The same dictionary recomputed with area 4. -/
noncomputable def c2dbFresh : Corner :=
  ⟨some 55, some (1 / (2 * Real.pi * ((5 : ℚ) : ℝ) * ((55 : ℚ) : ℝ))),
   some (1 / (2 * Real.pi * ((5 : ℚ) : ℝ) * ((55 : ℚ) : ℝ)) / ((4 : ℚ) : ℝ)),
   some (1 / (2 * Real.pi * ((5 : ℚ) : ℝ) * ((55 : ℚ) : ℝ)) / ((4 : ℚ) : ℝ) / (20e-6 : ℝ))⟩

/-- An `EISPOT` record as built at area 2: dB column [0, 6], phase column
[0, −90], frequency column [100, 10], series resistance 5.  Both targets
(+3 dB and −45°) interpolate to frequency 55. -/
noncomputable def c2rec : EISPOTRec := ⟨[0, 6], [0, -90], [100, 10], 5, 2, c2db, c2db⟩

/-- The record after `rec.area = 4`. -/
noncomputable def c2after : EISPOTRec := ⟨[0, 6], [0, -90], [100, 10], 5, 4, c2db, c2db⟩

/-- A record state used to instantiate the corner-frequency theorem. -/
def exC6 : EISPOTRec := ⟨[0, 6], [0, -90], [100, 10], 5, 2, noneCorner, noneCorner⟩

/-- Parameter mappings exercising the area-resolution priority. -/
def exPArea : List (LStr × PVal) :=
  [("area".toList, PVal.num 1), ("radius".toList, PVal.num 7)]

/-- Parameter list exercising the zero-conversion behaviour. -/
def exPZero : List (LStr × LStr) :=
  [("v0".toList, "0".toList), ("v1".toList, "0V".toList)]

/- ----------------------------------------------------------------
Claim theorems
---------------------------------------------------------------- -/

/-- C1: evaluation of the code at the failing input.  The spec claims a
record whose `parameters` lacks a supplied metadata key, or whose value
differs from the required one, is excluded; `filter_signals` keeps both
such records because the `continue` statements in the metadata loop only
restart the inner loop. -/
theorem filter_signals_param_predicate_ignored :
    filter_signals [exS1, exS2] none none [("foo".toList, PVal.num 1)] = [exS1, exS2] := by
  decide

unseal Rat.add Rat.sub Rat.mul Rat.inv in
/-- C2: evaluation of the code at the failing input.  The stored
dictionary of `c2rec` is exactly what `__init__` computes at area 2; the
`area` setter returns the record with only `area` changed, leaving both
stored dictionaries at their old values, and recomputing at the new area
yields a different dictionary — so the stored results do not reflect the
new area as the spec claims. -/
theorem eispot_area_setter_discards_recompute :
    EISPOT_set_db_corner_freq c2rec = .ok c2db ∧
    EISPOT_setArea c2rec 4 = .ok c2after ∧
    c2after.db_corner_params = c2db ∧
    c2after.phase_corner_params = c2db ∧
    EISPOT_set_db_corner_freq c2after ≠ .ok c2db := by
  have hdb : EISPOT_set_db_corner_freq c2rec = .ok c2db :=
    cornerFromTable_eval (by decide) (by decide)
  have hdbf : EISPOT_set_db_corner_freq c2after = .ok c2dbFresh :=
    cornerFromTable_eval (by decide) (by decide)
  have hphf : EISPOT_set_phase_corner_frequency c2after = .ok c2dbFresh :=
    cornerFromTable_eval (by decide) (by decide)
  have hset : EISPOT_setArea c2rec 4 = .ok c2after := by
    have hstep : EISPOT_setArea c2rec 4 =
        match EISPOT_set_db_corner_freq c2after with
        | .error e => .error e
        | .ok _ =>
          match EISPOT_set_phase_corner_frequency c2after with
          | .error e => .error e
          | .ok _ => .ok c2after := rfl
    rw [hstep, hdbf, hphf]
  refine ⟨hdb, hset, rfl, rfl, ?_⟩
  rw [hdbf]
  intro h
  have hcc : c2dbFresh = c2db := by
    injection h
  have hca := congrArg Corner.capArea hcc
  simp only [c2dbFresh, c2db, Option.some.injEq] at hca
  have hpi : (0 : ℝ) < Real.pi := Real.pi_pos
  have hx : (0 : ℝ) < 1 / (2 * Real.pi * ((5 : ℚ) : ℝ) * ((55 : ℚ) : ℝ)) := by
    push_cast
    positivity
  push_cast at hca hx
  have h24 : (1 : ℝ) / (2 * Real.pi * 5 * 55) / 4 < 1 / (2 * Real.pi * 5 * 55) / 2 := by
    linarith
  exact absurd hca (ne_of_lt h24)

/-- C3: the classifier dispatches `EISPOT`, `EISMON`, `CV` and `CPC` to
records whose `type` matches the tag exactly, but a file tagged `CHRONOA`
falls to the `else` branch of `_load_object` and yields no record at all,
contradicting the claim that it yields a Chronoamperometry record. -/
theorem load_object_technique_dispatch :
    create_signal none (mkTagFile ("EISPOT".toList)) = .ok (some ⟨"EISPOT".toList, []⟩) ∧
    create_signal none (mkTagFile ("EISMON".toList)) = .ok (some ⟨"EISMON".toList, []⟩) ∧
    create_signal none (mkTagFile ("CV".toList)) = .ok (some ⟨"CV".toList, []⟩) ∧
    create_signal none (mkTagFile ("CPC".toList)) = .ok (some ⟨"CPC".toList, []⟩) ∧
    create_signal none (mkTagFile ("CHRONOA".toList)) = .ok none := by
  decide

/-- C4 counterexample: with one malformed file in the middle of a batch,
`load_signals` aborts with the propagated error even though the other
files parse on their own; no per-file error list is produced. -/
theorem load_signals_batch_aborts_cex :
    load_signals none [exGood1, exBad, exGood2] = .error .malformed ∧
    create_signal none exGood1 = .ok (some exGood1Rec) ∧
    create_signal none exGood2 = .ok (some ⟨"CV".toList, [("label".toList, PVal.str ("S2".toList))]⟩) := by
  decide

/-- C4 amended: a fatal parse error in any file propagates out of
`load_signals` and aborts the whole batch (files after the failing one are
not parsed and no per-file error list is produced). -/
theorem load_signals_error_propagates (st : Option LStr) (pre : List (List LStr))
    (f : List LStr) (post : List (List LStr)) (e : Err)
    (hok : ∀ g ∈ pre, ∃ r, create_signal st g = .ok r)
    (hf : create_signal st f = .error e) :
    load_signals st (pre ++ f :: post) = .error e := by
  induction pre with
  | nil =>
    simp only [List.nil_append, load_signals, hf]
  | cons g gs ih =>
    rcases hok g (by simp) with ⟨r, hr⟩
    have ih' := ih fun x hx => hok x (by simp [hx])
    cases r with
    | none => simp only [List.cons_append, load_signals, hr, List.append_eq, ih']
    | some rec => simp only [List.cons_append, load_signals, hr, List.append_eq, ih']

/-- C4 amended, witness at a concrete batch. -/
theorem load_signals_error_propagates_witness :
    (∀ g ∈ [exGood1], ∃ r, create_signal none g = .ok r) ∧
    create_signal none exBad = .error .malformed ∧
    load_signals none ([exGood1] ++ exBad :: [exGood2]) = .error .malformed :=
  ⟨fun g hg => ⟨some exGood1Rec, by
      rcases List.mem_singleton.1 hg with rfl
      decide⟩,
   by decide,
   load_signals_error_propagates none [exGood1] exBad [exGood2] .malformed
     (fun g hg => ⟨some exGood1Rec, by
        rcases List.mem_singleton.1 hg with rfl
        decide⟩)
     (by decide)⟩

/-- C5: evaluation of the code at the failing input.  On a two-curve file
the `Curve` values are the contiguous set 1..2, but the first segment also
contains the raw `CURVE2` marker line as a data row (the skip range for
the next segment starts one line too late), so the table has 5 rows where
the claim's segment arithmetic gives 2 + 2 = 4. -/
theorem cv_segment_includes_next_marker :
    cv_find_skiplines exCV = [8, 13, 18] ∧
    cv_read_data exCV =
      [("0\t0.1\t0.5\t0.001".toList, 1), ("1\t0.2\t0.6\t0.002".toList, 1),
       ("CURVE2\tTABLE\t2".toList, 1),
       ("0\t0.3\t0.7\t0.003".toList, 2), ("1\t0.4\t0.8\t0.004".toList, 2)] ∧
    (cv_read_data exCV).map Prod.snd = [1, 1, 1, 2, 2] ∧
    (cv_read_data exCV).length = 5 ∧
    ¬ (cv_read_data exCV).length = 2 + 2 := by
  decide

/-- C6: for each corner metric of an impedance sweep, a target (+3 dB or
−45°) outside the sampled range of the metric column makes the lookup
fail and all four derived fields are absent with no error; a bracketed
target yields the corner frequency together with
`cap = 1/(2·π·rs·f)`, `cap/area = cap/area` and
`factor = cap/area / 20e-6`. -/
theorem eispot_corner_range_behavior (s : EISPOTRec)
    (hdb1 : s.df_db.length = s.df_freq.length) (hdb2 : 2 ≤ s.df_db.length)
    (hph1 : s.df_phase.length = s.df_freq.length) (hph2 : 2 ≤ s.df_phase.length) :
    (((∀ x ∈ s.df_db, x < 3) ∨ (∀ x ∈ s.df_db, (3 : ℚ) < x)) →
       EISPOT_set_db_corner_freq s = .ok noneCorner) ∧
    ((∃ a ∈ s.df_db, a ≤ 3) → (∃ b ∈ s.df_db, (3 : ℚ) ≤ b) →
       ∃ fc, EISPOT_set_db_corner_freq s =
         .ok ⟨some fc, some (1 / (2 * Real.pi * (s.rs : ℝ) * (fc : ℝ))),
           some (1 / (2 * Real.pi * (s.rs : ℝ) * (fc : ℝ)) / (s.area : ℝ)),
           some (1 / (2 * Real.pi * (s.rs : ℝ) * (fc : ℝ)) / (s.area : ℝ) / (20e-6 : ℝ))⟩) ∧
    (((∀ x ∈ s.df_phase, x < -45) ∨ (∀ x ∈ s.df_phase, (-45 : ℚ) < x)) →
       EISPOT_set_phase_corner_frequency s = .ok noneCorner) ∧
    ((∃ a ∈ s.df_phase, a ≤ -45) → (∃ b ∈ s.df_phase, (-45 : ℚ) ≤ b) →
       ∃ fc, EISPOT_set_phase_corner_frequency s =
         .ok ⟨some fc, some (1 / (2 * Real.pi * (s.rs : ℝ) * (fc : ℝ))),
           some (1 / (2 * Real.pi * (s.rs : ℝ) * (fc : ℝ)) / (s.area : ℝ)),
           some (1 / (2 * Real.pi * (s.rs : ℝ) * (fc : ℝ)) / (s.area : ℝ) / (20e-6 : ℝ))⟩) := by
  have hgdb : ¬ (s.df_db.length ≠ s.df_freq.length ∨ s.df_db.length < 2) := by
    push_neg
    exact ⟨hdb1, by omega⟩
  have hgph : ¬ (s.df_phase.length ≠ s.df_freq.length ∨ s.df_phase.length < 2) := by
    push_neg
    exact ⟨hph1, by omega⟩
  refine ⟨fun hout => cornerFromTable_out_of_range hgdb hout,
    fun ha hb => cornerFromTable_in_range hdb1 hdb2 ha hb,
    fun hout => cornerFromTable_out_of_range hgph hout,
    fun ha hb => cornerFromTable_in_range hph1 hph2 ha hb⟩

unseal Rat.add Rat.sub Rat.mul Rat.inv in
/-- C6 witness: both hypotheses hold at a concrete record and the bracketed
+3 dB target yields the full dictionary. -/
theorem eispot_corner_range_behavior_witness :
    (exC6.df_db.length = exC6.df_freq.length ∧ 2 ≤ exC6.df_db.length) ∧
    (exC6.df_phase.length = exC6.df_freq.length ∧ 2 ≤ exC6.df_phase.length) ∧
    (∃ fc, EISPOT_set_db_corner_freq exC6 =
      .ok ⟨some fc, some (1 / (2 * Real.pi * (exC6.rs : ℝ) * (fc : ℝ))),
        some (1 / (2 * Real.pi * (exC6.rs : ℝ) * (fc : ℝ)) / (exC6.area : ℝ)),
        some (1 / (2 * Real.pi * (exC6.rs : ℝ) * (fc : ℝ)) / (exC6.area : ℝ) / (20e-6 : ℝ))⟩) :=
  ⟨⟨by decide, by decide⟩, ⟨by decide, by decide⟩,
    (eispot_corner_range_behavior exC6 (by decide) (by decide) (by decide) (by decide)).2.1
      ⟨0, by decide, by decide⟩
      ⟨6, by decide, by decide⟩⟩

/-- C7: the electrode area is resolved in strict priority order: a present
`area` key is used as stored regardless of other keys, else `radius` gives
π·r², else `diameter` gives π·(d/2)², else the default π·0.05². -/
theorem area_resolution_priority (ps : List (LStr × PVal)) :
    (∀ v, lookupParam ps ("area".toList) = some v → update_area ps = .ok (avalOfP v)) ∧
    (lookupParam ps ("area".toList) = none →
      ∀ r : ℚ, lookupParam ps ("radius".toList) = some (.num r) →
        update_area ps = .ok (.num (Real.pi * (r : ℝ) ^ 2))) ∧
    (lookupParam ps ("area".toList) = none → lookupParam ps ("radius".toList) = none →
      ∀ d : ℚ, lookupParam ps ("diameter".toList) = some (.num d) →
        update_area ps = .ok (.num (Real.pi * ((d : ℝ) / 2) ^ 2))) ∧
    (lookupParam ps ("area".toList) = none → lookupParam ps ("radius".toList) = none →
      lookupParam ps ("diameter".toList) = none →
        update_area ps = .ok (.num (Real.pi * (0.05 : ℝ) ^ 2))) := by
  refine ⟨?_, ?_, ?_, ?_⟩
  · intro v hv
    unfold update_area
    rw [hv]
  · intro h0 r hr
    unfold update_area
    rw [h0, hr]
  · intro h0 h1 d hd
    unfold update_area
    rw [h0, h1, hd]
  · intro h0 h1 h2
    unfold update_area
    rw [h0, h1, h2]

/-- C7 witness: the `area` key wins even with a `radius` key present. -/
theorem area_resolution_priority_witness :
    lookupParam exPArea ("area".toList) = some (PVal.num 1) ∧
    lookupParam exPArea ("radius".toList) = some (PVal.num 7) ∧
    update_area exPArea = .ok (avalOfP (PVal.num 1)) :=
  ⟨by decide, by decide,
    (area_resolution_priority exPArea).1 (PVal.num 1) (by decide)⟩

unseal Rat.add Rat.sub Rat.mul Rat.inv in
/-- C8: when the token matches the number/prefix/unit/exponent pattern and
both the prefix and the lower-cased base unit are recognized, the result
is number × (prefixFactor/defaultFactor)^exponent (exponent 1 when the
group is empty); the declared tables give 3.3V→3.3, 500mV→0.5,
10kOhm→10000, the bare decimal 42→42.0, and "garbage" is a conversion
miss (Python None, kept as the raw string by the caller). -/
theorem factor_conversion_spec :
    (∀ (s : LStr) (g : UnitGroups) (num pf df : ℚ),
      matchUnits s = some g →
      pyFloat g.numStr = some num →
      factorOfGroup g.pfx = some pf →
      FACTOR_DEFAULT (toLowerStr g.unitStr) = some df →
      factor_conversion s = .ok (some (num * (pf / df) ^ expVal g.expStr))) ∧
    factor_conversion ("3.3V".toList) = .ok (some (33 / 10)) ∧
    factor_conversion ("500mV".toList) = .ok (some (1 / 2)) ∧
    factor_conversion ("10kOhm".toList) = .ok (some 10000) ∧
    factor_conversion ("42".toList) = .ok (some 42) ∧
    factor_conversion ("garbage".toList) = .ok none ∧
    clean_params [("k".toList, "garbage".toList)] =
      .ok [("k".toList, PVal.str ("garbage".toList))] := by
  refine ⟨?_, ?_, ?_, ?_, ?_, ?_, ?_⟩
  · intro s g num pf df hm hf hpf hdf
    simp only [factor_conversion, hm, hf, hpf, hdf]
  · decide
  · decide
  · decide
  · decide
  · decide
  · decide

unseal Rat.add Rat.sub Rat.mul Rat.inv in
/-- C8 witness: the general clause applied to the token 500mV, whose
groups are 500 / m / V / (empty). -/
theorem factor_conversion_spec_witness :
    matchUnits ("500mV".toList) = some ⟨"500".toList, "m".toList, "V".toList, []⟩ ∧
    factor_conversion ("500mV".toList) =
      .ok (some (500 * ((1 / 1000) / 1) ^ expVal [])) :=
  ⟨by decide,
    factor_conversion_spec.1 ("500mV".toList) ⟨"500".toList, "m".toList, "V".toList, []⟩
      500 (1 / 1000) 1 (by decide) (by decide)
      (by decide) (by decide)⟩

/-- C9 counterexample: when the very first note line begins with the
`PSTAT` sentinel, the code does not stop — it parses and stores the line
(key `pstat`), contradicting the claim that the sentinel line is never
stored, including when it is the first note line. -/
theorem read_note_first_sentinel_stored :
    pstatB ("PSTAT: potentiostat".toList) = true ∧
    read_note_params exPstatFirst = .ok [("pstat".toList, "potentiostat".toList)] ∧
    read_note_params exPstatFirst ≠ .ok [] := by
  refine ⟨by decide, by decide, ?_⟩
  intro h
  rw [show read_note_params exPstatFirst = .ok [("pstat".toList, "potentiostat".toList)] from
    by decide] at h
  simp at h

/-- C9 amended: header parsing skips the 6-line preamble; a blank first
note line yields no parameters; a first note line that cannot be split on
a single colon raises MalformedHeader; a splittable first line is stored
(lower-cased key) even when it begins with the sentinel, and from the
second note line onward a line beginning with the sentinel stops parsing
and is not stored. -/
theorem read_note_amended :
    (∀ (pre : List LStr) (l7 : LStr) (rest : List LStr),
      pre.length = 6 → pyStrip l7 = [] →
      read_note_params (pre ++ l7 :: rest) = .ok []) ∧
    (∀ (pre : List LStr) (l7 : LStr) (rest : List LStr),
      pre.length = 6 → ¬ pyStrip l7 = [] → splitStrip l7 = none →
      read_note_params (pre ++ l7 :: rest) = .error .malformed) ∧
    (∀ (pre : List LStr) (l7 : LStr) (k0 v0 : LStr) (mids : List LStr)
       (es : List (LStr × LStr)) (pstatLine : LStr) (junk : List LStr),
      pre.length = 6 → ¬ pyStrip l7 = [] → splitStrip l7 = some (k0, v0) →
      (∀ l ∈ mids, pstatB l = false) → collectEntries mids = some es →
      pstatB pstatLine = true →
      read_note_params (pre ++ l7 :: (mids ++ pstatLine :: junk)) =
        .ok (es.foldl (fun a kv => insertParam a kv.1 kv.2) [(toLowerStr k0, v0)])) := by
  refine ⟨?_, ?_, ?_⟩
  · intro pre l7 rest h6 hblank
    unfold read_note_params
    rw [if_neg (len_ge_of_len6 h6), getD6_of_len6 h6, if_pos hblank]
  · intro pre l7 rest h6 hblank hsplit
    unfold read_note_params
    rw [if_neg (len_ge_of_len6 h6), getD6_of_len6 h6, if_neg hblank, hsplit]
  · intro pre l7 k0 v0 mids es pstatLine junk h6 hblank hsplit hmids hes hps
    unfold read_note_params
    rw [if_neg (len_ge_of_len6 h6), getD6_of_len6 h6, if_neg hblank, hsplit,
      drop7_of_len6 h6]
    show noteLoop [(toLowerStr k0, v0)] (mids ++ pstatLine :: junk) =
      .ok (es.foldl (fun a kv => insertParam a kv.1 kv.2) [(toLowerStr k0, v0)])
    rw [noteLoop_append hmids hes]
    unfold noteLoop
    rw [if_pos hps]

/-- C9 amended, witness: a concrete file with one metadata line, one
further metadata line, a sentinel line and junk after it. -/
theorem read_note_amended_witness :
    pyStrip ("label: S1".toList) ≠ [] ∧
    splitStrip ("label: S1".toList) = some ("label".toList, "S1".toList) ∧
    collectEntries ["temp: 25C".toList] = some [("temp".toList, "25C".toList)] ∧
    pstatB ("PSTAT\tREF600".toList) = true ∧
    read_note_params
      (["L1".toList, "L2".toList, "L3".toList, "L4".toList, "L5".toList, "L6".toList] ++
        ("label: S1".toList) :: (["temp: 25C".toList] ++ ("PSTAT\tREF600".toList) :: ["x:::x".toList])) =
      .ok ([("temp".toList, "25C".toList)].foldl (fun a kv => insertParam a kv.1 kv.2)
        [(toLowerStr ("label".toList), "S1".toList)]) :=
  ⟨by decide, by decide, by decide, by decide,
    read_note_amended.2.2
      ["L1".toList, "L2".toList, "L3".toList, "L4".toList, "L5".toList, "L6".toList]
      ("label: S1".toList) ("label".toList) ("S1".toList)
      ["temp: 25C".toList] [("temp".toList, "25C".toList)]
      ("PSTAT\tREF600".toList) ["x:::x".toList]
      (by decide) (by decide) (by decide)
      (by intro l hl; rcases List.mem_singleton.1 hl with rfl; decide)
      (by decide) (by decide)⟩

/-- C10: a metadata value whose conversion yields exactly 0 keeps the raw
string in `parameters`, because the walrus-guarded assignment in
`_clean_params` only accepts a truthy conversion result. -/
theorem zero_conversion_keeps_raw (ps : List (LStr × LStr)) (res : List (LStr × PVal))
    (i : ℕ) (k v : LStr)
    (hi : ps.get? i = some (k, v))
    (hz : factor_conversion v = .ok (some 0))
    (hr : clean_params ps = .ok res) :
    res.get? i = some (k, PVal.str v) := by
  induction ps generalizing i res with
  | nil => simp at hi
  | cons kv rest ih =>
    unfold clean_params at hr
    rcases hce : cleanEntry kv with e | entry <;> rw [hce] at hr
    · exact absurd hr (by simp)
    · rcases hcl : clean_params rest with e' | rs <;> rw [hcl] at hr
      · exact absurd hr (by simp)
      · simp only [Except.ok.injEq] at hr
        subst hr
        cases i with
        | zero =>
          simp only [List.get?] at hi
          injection hi with hi
          subst hi
          unfold cleanEntry at hce
          rw [hz] at hce
          simp only [if_pos rfl, Except.ok.injEq] at hce
          simp [← hce]
        | succ n =>
          simp only [List.get?] at hi ⊢
          exact ih rs n hi hcl

unseal Rat.add Rat.sub Rat.mul Rat.inv in
/-- C10 witness: the raw strings 0 and 0V both convert to 0 and both stay
as raw strings after cleaning. -/
theorem zero_conversion_keeps_raw_witness :
    exPZero.get? 0 = some ("v0".toList, "0".toList) ∧
    factor_conversion ("0".toList) = .ok (some 0) ∧
    clean_params exPZero = .ok [("v0".toList, PVal.str ("0".toList)),
      ("v1".toList, PVal.str ("0V".toList))] ∧
    [("v0".toList, PVal.str ("0".toList)), ("v1".toList, PVal.str ("0V".toList))].get? 0 =
      some ("v0".toList, PVal.str ("0".toList)) :=
  ⟨by decide, by decide, by decide,
    zero_conversion_keeps_raw exPZero
      [("v0".toList, PVal.str ("0".toList)), ("v1".toList, PVal.str ("0V".toList))]
      0 ("v0".toList) ("0".toList) (by decide) (by decide)
      (by decide)⟩

end Gamry
